import Mathlib

/-!
Shallow embedding of the token-lifecycle core of the auth service
(domain model, refresh-token repository, JWT manager, auth use case),
translated from the Go sources:
  internal/domain (user.go, refresh_token.go, errors.go),
  internal/repository/refresh_token_repository.go, user_repository.go,
  internal/usecase (auth_usecase.go),
  pkg/jwt/jwt.go.
Time is modelled as an integer instant; `time.Now().After(t)` becomes
`t < now`.  The relational store is modelled as in-memory lists with the
semantics of the GORM queries in the repository layer (WHERE filters,
First = first match in primary-key order, UPDATE = map over matching
rows, autoincrement primary key = nextId counter).  Database I/O errors
are out of scope; randomness (crypto/rand, bcrypt) enters through
explicit oracle parameters.
-/

/-- domain.User (user.go): id is a nanoid string assigned on create.
gorm timestamps and soft-delete marker are not used by any operation
modelled here and are omitted. -/
structure User where
  ID : String
  Email : String
  Password : String
  Name : String
  deriving DecidableEq

/-- domain.RefreshToken (refresh_token.go): autoincrement numeric id,
owning user id, unique opaque token value, expiry instant, revoked flag.
gorm timestamps omitted (unused by the modelled operations). -/
structure RefreshToken where
  ID : Nat
  UserID : String
  Token : String
  ExpiresAt : Int
  IsRevoked : Bool
  deriving DecidableEq

/-- RefreshToken.IsExpired: `time.Now().After(rt.ExpiresAt)`,
i.e. strictly after the expiry instant. -/
def RefreshToken.IsExpired (rt : RefreshToken) (now : Int) : Bool :=
  decide (rt.ExpiresAt < now)

/-- RefreshToken.IsValid: `!rt.IsExpired() && !rt.IsRevoked`. -/
def RefreshToken.IsValid (rt : RefreshToken) (now : Int) : Bool :=
  !(rt.IsExpired now) && !rt.IsRevoked

/-- domain errors (errors.go), plus a constructor for wrapped internal
errors produced with fmt.Errorf. -/
inductive DomainError where
  | userNotFound
  | userAlreadyExists
  | invalidCredentials
  | refreshTokenNotFound
  | refreshTokenExpired
  | refreshTokenRevoked
  | invalidToken
  | unauthorized
  | internalError (msg : String)
  deriving DecidableEq

namespace refreshTokenRepository

/-- FindByToken: `WHERE token = ? ... First`; ErrRefreshTokenNotFound
when no row matches. A revoked or expired row is still returned. -/
def FindByToken (recs : List RefreshToken) (token : String) :
    Except DomainError RefreshToken :=
  match recs.find? (fun r => r.Token == token) with
  | none => .error .refreshTokenNotFound
  | some r => .ok r

/-- FindByUserID: `WHERE user_id = ? AND is_revoked = false`. -/
def FindByUserID (recs : List RefreshToken) (userID : String) :
    List RefreshToken :=
  recs.filter (fun r => r.UserID == userID && !r.IsRevoked)

/-- Revoke: `UPDATE refresh_tokens SET is_revoked = true WHERE token = ?`;
matching zero rows is not an error. -/
def Revoke (recs : List RefreshToken) (tokenString : String) :
    List RefreshToken :=
  recs.map (fun r =>
    if r.Token == tokenString then { r with IsRevoked := true } else r)

/-- RevokeAllByUserID:
`UPDATE refresh_tokens SET is_revoked = true WHERE user_id = ?`. -/
def RevokeAllByUserID (recs : List RefreshToken) (userID : String) :
    List RefreshToken :=
  recs.map (fun r =>
    if r.UserID == userID then { r with IsRevoked := true } else r)

/-- Create: INSERT; the bigserial primary key is assigned by the store. -/
def Create (recs : List RefreshToken) (nextId : Nat) (tok : RefreshToken) :
    List RefreshToken × Nat :=
  (recs ++ [{ tok with ID := nextId }], nextId + 1)

/-- DeleteExpired: `DELETE WHERE expires_at < now`. -/
def DeleteExpired (recs : List RefreshToken) (now : Int) :
    List RefreshToken :=
  recs.filter (fun r => !(decide (r.ExpiresAt < now)))

end refreshTokenRepository

namespace userRepository

/-- FindByEmail: `WHERE email = ? ... First`; ErrUserNotFound if absent. -/
def FindByEmail (users : List User) (email : String) :
    Except DomainError User :=
  match users.find? (fun u => u.Email == email) with
  | none => .error .userNotFound
  | some u => .ok u

/-- FindByID: `WHERE id = ? ... First`; ErrUserNotFound if absent. -/
def FindByID (users : List User) (id : String) :
    Except DomainError User :=
  match users.find? (fun u => u.ID == id) with
  | none => .error .userNotFound
  | some u => .ok u

/-- Create: INSERT (the nanoid primary key is already set on the value). -/
def Create (users : List User) (u : User) : List User :=
  users ++ [u]

end userRepository

/-- pkg/jwt JWTManager: only the configured lifetimes matter to the
modelled operations (keys are opaque to the token-lifecycle logic). -/
structure JWTManager where
  accessTokenDuration : Int
  refreshTokenDuration : Int
  deriving DecidableEq

/-- GetAccessTokenDuration accessor. -/
def JWTManager.GetAccessTokenDuration (m : JWTManager) : Int :=
  m.accessTokenDuration

namespace hex

/-- encoding/hex lower-case digit table. -/
def hexDigit (n : Nat) : Char :=
  if n < 10 then Char.ofNat (48 + n) else Char.ofNat (87 + n)

/-- hex.EncodeToString over a byte list: two lower-case hex digits per
byte, high nibble first. -/
def EncodeToString (bytes : List Nat) : String :=
  ⟨bytes.flatMap (fun b => [hexDigit (b / 16), hexDigit (b % 16)])⟩

end hex

/-- The sixteen characters hex.EncodeToString can emit. -/
def hexAlphabet : String := "0123456789abcdef"

/-- JWTManager.GenerateRefreshToken: reads 32 bytes from the random
source, hex-encodes them, and pairs the string with
`now + refreshTokenDuration`.  The crypto/rand byte stream is the
oracle `rand`. -/
def JWTManager.GenerateRefreshToken (m : JWTManager) (rand : Nat → Fin 256)
    (now : Int) : String × Int :=
  let tokenBytes := (List.range 32).map (fun i => (rand i).val)
  (hex.EncodeToString tokenBytes, now + m.refreshTokenDuration)

/-- usecase.RegisterRequest (fields as read in auth_usecase.go). -/
structure RegisterRequest where
  Email : String
  Password : String
  Name : String
  deriving DecidableEq

/-- usecase.LoginRequest. -/
structure LoginRequest where
  Email : String
  Password : String
  deriving DecidableEq

/-- usecase.RefreshTokenRequest. -/
structure RefreshTokenRequest where
  RefreshToken : String
  deriving DecidableEq

/-- usecase.UserResponse. -/
structure UserResponse where
  ID : String
  Email : String
  Name : String
  deriving DecidableEq

/-- usecase.AuthResponse. -/
structure AuthResponse where
  AccessToken : String
  RefreshToken : String
  TokenType : String
  ExpiresIn : Int
  User : UserResponse
  deriving DecidableEq

/-- The stores the use case acts on: user table, refresh-token table and
its autoincrement counter. -/
structure AppState where
  users : List User
  tokens : List RefreshToken
  nextId : Nat
  deriving DecidableEq

/-- Outcomes of the two token generators for one generateTokens call:
GenerateAccessToken result and GenerateRefreshToken result
(token string and expiry).  Their internal randomness and clock reads
make them oracles of the use case. -/
structure TokenOracle where
  access : Except String String
  refresh : Except String (String × Int)

namespace authUseCase

/-- authUseCase.generateTokens: mint access token, mint refresh token,
persist the refresh-token row, build the AuthResponse. -/
def generateTokens (s : AppState) (m : JWTManager) (o : TokenOracle)
    (user : User) : Except DomainError AuthResponse × AppState :=
  match o.access with
  | .error e =>
      (.error (.internalError ("failed to generate access token: " ++ e)), s)
  | .ok accessToken =>
    match o.refresh with
    | .error e =>
        (.error (.internalError ("failed to generate refresh token: " ++ e)), s)
    | .ok (refreshTokenString, expiresAt) =>
      let (recs, nid) := refreshTokenRepository.Create s.tokens s.nextId
        { ID := 0, UserID := user.ID, Token := refreshTokenString,
          ExpiresAt := expiresAt, IsRevoked := false }
      (.ok { AccessToken := accessToken, RefreshToken := refreshTokenString,
             TokenType := "Bearer", ExpiresIn := m.GetAccessTokenDuration,
             User := { ID := user.ID, Email := user.Email, Name := user.Name } },
       { s with tokens := recs, nextId := nid })

/-- authUseCase.Register.  `generateFromPassword` is the bcrypt hashing
oracle, `newUserID` the nanoid the store assigns to the created row. -/
def Register (s : AppState) (m : JWTManager)
    (generateFromPassword : Except String String) (newUserID : String)
    (o : TokenOracle) (req : RegisterRequest) :
    Except DomainError AuthResponse × AppState :=
  match userRepository.FindByEmail s.users req.Email with
  | .ok _ => (.error .userAlreadyExists, s)
  | .error e =>
    if e != .userNotFound then (.error e, s)
    else
      match generateFromPassword with
      | .error msg =>
          (.error (.internalError ("failed to hash password: " ++ msg)), s)
      | .ok hashedPassword =>
        let user : User :=
          { ID := newUserID, Email := req.Email, Password := hashedPassword,
            Name := req.Name }
        generateTokens { s with users := userRepository.Create s.users user }
          m o user

/-- authUseCase.Login.  `compareHashAndPassword` is the bcrypt
verification oracle (stored hash, presented password ↦ match). -/
def Login (s : AppState) (m : JWTManager)
    (compareHashAndPassword : String → String → Bool) (o : TokenOracle)
    (req : LoginRequest) : Except DomainError AuthResponse × AppState :=
  match userRepository.FindByEmail s.users req.Email with
  | .error e =>
    if e == .userNotFound then (.error .invalidCredentials, s)
    else (.error e, s)
  | .ok user =>
    if !(compareHashAndPassword user.Password req.Password) then
      (.error .invalidCredentials, s)
    else generateTokens s m o user

/-- authUseCase.RefreshToken: find the record, check validity (revoked
reported before expired), look up the owning user, revoke the presented
token, then generate the new pair. -/
def RefreshToken (s : AppState) (m : JWTManager) (o : TokenOracle)
    (now : Int) (req : RefreshTokenRequest) :
    Except DomainError AuthResponse × AppState :=
  match refreshTokenRepository.FindByToken s.tokens req.RefreshToken with
  | .error e =>
    if e == .refreshTokenNotFound then (.error .invalidToken, s)
    else (.error e, s)
  | .ok refreshTok =>
    if !(refreshTok.IsValid now) then
      if refreshTok.IsRevoked then (.error .refreshTokenRevoked, s)
      else (.error .refreshTokenExpired, s)
    else
      match userRepository.FindByID s.users refreshTok.UserID with
      | .error e => (.error e, s)
      | .ok user =>
        generateTokens
          { s with tokens :=
              refreshTokenRepository.Revoke s.tokens req.RefreshToken }
          m o user

/-- authUseCase.Logout: delegates to the repository Revoke. -/
def Logout (s : AppState) (refreshToken : String) :
    Except DomainError Unit × AppState :=
  (.ok (), { s with tokens := refreshTokenRepository.Revoke s.tokens refreshToken })

/-- authUseCase.LogoutAll: delegates to RevokeAllByUserID. -/
def LogoutAll (s : AppState) (userID : String) :
    Except DomainError Unit × AppState :=
  (.ok (), { s with tokens := refreshTokenRepository.RevokeAllByUserID s.tokens userID })

end authUseCase

/-- One core operation together with its request data and oracles: the
use-case entry points and the refresh-token store operations they
invoke. -/
inductive Op where
  | register (m : JWTManager) (generateFromPassword : Except String String)
      (newUserID : String) (o : TokenOracle) (req : RegisterRequest)
  | login (m : JWTManager) (compareHashAndPassword : String → String → Bool)
      (o : TokenOracle) (req : LoginRequest)
  | refresh (m : JWTManager) (o : TokenOracle) (now : Int)
      (req : RefreshTokenRequest)
  | logout (refreshToken : String)
  | logoutAll (userID : String)
  | createToken (rec : RefreshToken)
  | revokeToken (tokenString : String)
  | revokeAllByUserID (userID : String)
  | deleteExpired (now : Int)

/-- The state transition an operation performs. -/
def applyOp (s : AppState) : Op → AppState
  | .register m g uid o req => (authUseCase.Register s m g uid o req).2
  | .login m c o req => (authUseCase.Login s m c o req).2
  | .refresh m o now req => (authUseCase.RefreshToken s m o now req).2
  | .logout t => (authUseCase.Logout s t).2
  | .logoutAll u => (authUseCase.LogoutAll s u).2
  | .createToken rec =>
      let (recs, nid) := refreshTokenRepository.Create s.tokens s.nextId rec
      { s with tokens := recs, nextId := nid }
  | .revokeToken t =>
      { s with tokens := refreshTokenRepository.Revoke s.tokens t }
  | .revokeAllByUserID u =>
      { s with tokens := refreshTokenRepository.RevokeAllByUserID s.tokens u }
  | .deleteExpired now =>
      { s with tokens := refreshTokenRepository.DeleteExpired s.tokens now }

/-- States reachable from the empty stores by core operations. -/
inductive Reachable : AppState → Prop where
  | init : Reachable { users := [], tokens := [], nextId := 0 }
  | step {s : AppState} (op : Op) : Reachable s → Reachable (applyOp s op)

/-- Refresh flow in the order the spec narrates it (revoke the presented
token first, then look up the owning account, then issue the new pair);
written only to compare against the implementation order in
`authUseCase.RefreshToken`, which performs the account lookup before the
revocation. -/
def RefreshTokenSpecOrder (s : AppState) (m : JWTManager) (o : TokenOracle)
    (now : Int) (req : RefreshTokenRequest) :
    Except DomainError AuthResponse × AppState :=
  match refreshTokenRepository.FindByToken s.tokens req.RefreshToken with
  | .error e =>
    if e == .refreshTokenNotFound then (.error .invalidToken, s)
    else (.error e, s)
  | .ok refreshTok =>
    if !(refreshTok.IsValid now) then
      if refreshTok.IsRevoked then (.error .refreshTokenRevoked, s)
      else (.error .refreshTokenExpired, s)
    else
      let s' := { s with tokens :=
        refreshTokenRepository.Revoke s.tokens req.RefreshToken }
      match userRepository.FindByID s'.users refreshTok.UserID with
      | .error e => (.error e, s')
      | .ok user => authUseCase.generateTokens s' m o user

/-- One transition of the refresh-token table: every row of the new
table is either a revocation-monotone update of an old row (same id,
revoked flag can only go to true) or a freshly inserted row whose id is
at least the old autoincrement counter. -/
def TokensEvolve (old new : List RefreshToken) (bound : Nat) : Prop :=
  ∀ r' ∈ new,
    (∃ r ∈ old, r'.ID = r.ID ∧ (r.IsRevoked = true → r'.IsRevoked = true))
    ∨ bound ≤ r'.ID

/-- Store invariant maintained by every operation: row ids are below the
autoincrement counter and pairwise distinct. -/
def StoreInv (s : AppState) : Prop :=
  (∀ r ∈ s.tokens, r.ID < s.nextId)
  ∧ s.tokens.Pairwise (fun a b => a.ID ≠ b.ID)

/-!
## Helper lemmas
-/

theorem FindByToken_eq_ok {recs : List RefreshToken} {t : String}
    {r : RefreshToken} :
    refreshTokenRepository.FindByToken recs t = .ok r ↔
      recs.find? (fun x => x.Token == t) = some r := by
  unfold refreshTokenRepository.FindByToken
  cases h : recs.find? (fun x => x.Token == t) <;> simp [h]

theorem Token_of_FindByToken {recs : List RefreshToken} {t : String}
    {r : RefreshToken}
    (h : refreshTokenRepository.FindByToken recs t = .ok r) : r.Token = t := by
  have := List.find?_some (FindByToken_eq_ok.mp h)
  simpa using this

theorem find?_token_map (f : RefreshToken → RefreshToken)
    (hf : ∀ x, (f x).Token = x.Token) (l : List RefreshToken) (t : String) :
    (l.map f).find? (fun x => x.Token == t)
      = (l.find? (fun x => x.Token == t)).map f := by
  induction l with
  | nil => rfl
  | cons a l ih =>
    simp only [List.map_cons, List.find?_cons]
    rw [hf a]
    cases h : (a.Token == t) <;> simp [ih]

theorem eq_of_mem_pairwise_ne {l : List RefreshToken}
    (hp : l.Pairwise (fun a b => a.ID ≠ b.ID)) {a b : RefreshToken}
    (ha : a ∈ l) (hb : b ∈ l) (hid : a.ID = b.ID) : a = b := by
  induction l with
  | nil => cases ha
  | cons x l ih =>
    rcases List.pairwise_cons.mp hp with ⟨hx, hl⟩
    rcases List.mem_cons.mp ha with rfl | ha'
    · rcases List.mem_cons.mp hb with rfl | hb'
      · rfl
      · exact absurd hid (hx _ hb')
    · rcases List.mem_cons.mp hb with rfl | hb'
      · exact absurd hid.symm (hx _ ha')
      · exact ih hl ha' hb'

theorem tokensEvolve_refl (l : List RefreshToken) (b : Nat) :
    TokensEvolve l l b :=
  fun r' h => .inl ⟨r', h, rfl, id⟩

theorem tokensEvolve_trans {l₁ l₂ l₃ : List RefreshToken} {b : Nat}
    (h₁₂ : TokensEvolve l₁ l₂ b) (h₂₃ : TokensEvolve l₂ l₃ b) :
    TokensEvolve l₁ l₃ b := by
  intro r' hr'
  rcases h₂₃ r' hr' with ⟨r₂, hr₂, hid, hmono⟩ | hge
  · rcases h₁₂ r₂ hr₂ with ⟨r₁, hr₁, hid₁, hmono₁⟩ | hge₂
    · exact .inl ⟨r₁, hr₁, hid.trans hid₁, fun h => hmono (hmono₁ h)⟩
    · exact .inr (by rw [hid]; exact hge₂)
  · exact .inr hge

theorem tokensEvolve_map_revokeIf (p : RefreshToken → Bool)
    (l : List RefreshToken) (b : Nat) :
    TokensEvolve l
      (l.map (fun r => if p r then { r with IsRevoked := true } else r)) b := by
  intro r' hr'
  rcases List.mem_map.mp hr' with ⟨r, hr, rfl⟩
  refine .inl ⟨r, hr, ?_, ?_⟩ <;> cases hp : p r <;> simp [hp]

theorem tokensEvolve_filter (p : RefreshToken → Bool)
    (l : List RefreshToken) (b : Nat) :
    TokensEvolve l (l.filter p) b :=
  fun r' h => .inl ⟨r', List.mem_of_mem_filter h, rfl, id⟩

theorem tokensEvolve_append_fresh (l : List RefreshToken)
    (rec : RefreshToken) (b : Nat) (hge : b ≤ rec.ID) :
    TokensEvolve l (l ++ [rec]) b := by
  intro r' hr'
  rcases List.mem_append.mp hr' with h | h
  · exact .inl ⟨r', h, rfl, id⟩
  · rw [List.mem_singleton.mp h]
    exact .inr hge

theorem generateTokens_tokensEvolve (s : AppState) (m : JWTManager)
    (o : TokenOracle) (u : User) :
    TokensEvolve s.tokens (authUseCase.generateTokens s m o u).2.tokens
      s.nextId := by
  obtain ⟨acc, ref⟩ := o
  unfold authUseCase.generateTokens
  cases acc with
  | error e => exact tokensEvolve_refl _ _
  | ok a =>
    cases ref with
    | error e => exact tokensEvolve_refl _ _
    | ok pr =>
      obtain ⟨t, e⟩ := pr
      simp only [refreshTokenRepository.Create]
      exact tokensEvolve_append_fresh _ _ _ (le_refl _)

theorem applyOp_tokensEvolve (s : AppState) (op : Op) :
    TokensEvolve s.tokens (applyOp s op).tokens s.nextId := by
  cases op with
  | register m g uid o req =>
    simp only [applyOp]
    unfold authUseCase.Register
    repeat' split
    all_goals
      first
        | exact tokensEvolve_refl _ _
        | exact generateTokens_tokensEvolve _ _ _ _
  | login m c o req =>
    simp only [applyOp]
    unfold authUseCase.Login
    repeat' split
    all_goals
      first
        | exact tokensEvolve_refl _ _
        | exact generateTokens_tokensEvolve _ _ _ _
  | refresh m o now req =>
    simp only [applyOp]
    unfold authUseCase.RefreshToken
    repeat' split
    all_goals
      first
        | exact tokensEvolve_refl _ _
        | exact tokensEvolve_trans (tokensEvolve_map_revokeIf _ _ _)
            (generateTokens_tokensEvolve _ _ _ _)
  | logout t => exact tokensEvolve_map_revokeIf _ _ _
  | logoutAll u => exact tokensEvolve_map_revokeIf _ _ _
  | createToken rec => exact tokensEvolve_append_fresh _ _ _ (le_refl _)
  | revokeToken t => exact tokensEvolve_map_revokeIf _ _ _
  | revokeAllByUserID u => exact tokensEvolve_map_revokeIf _ _ _
  | deleteExpired now => exact tokensEvolve_filter _ _ _

theorem ID_revokeIf (p : RefreshToken → Bool) (r : RefreshToken) :
    (if p r then { r with IsRevoked := true } else r).ID = r.ID := by
  cases hp : p r <;> simp [hp]

theorem storeInv_map_revokeIf (s : AppState) (p : RefreshToken → Bool)
    (h : StoreInv s) :
    StoreInv { s with tokens := s.tokens.map (fun r => if p r then { r with IsRevoked := true } else r) } := by
  obtain ⟨hb, hp'⟩ := h
  constructor
  · intro r' hr'
    rcases List.mem_map.mp hr' with ⟨r, hr, rfl⟩
    rw [ID_revokeIf]
    exact hb r hr
  · refine List.pairwise_map.mpr (hp'.imp ?_)
    intro a b hab
    rw [ID_revokeIf, ID_revokeIf]
    exact hab

theorem storeInv_filter (s : AppState) (p : RefreshToken → Bool)
    (h : StoreInv s) :
    StoreInv { s with tokens := s.tokens.filter p } := by
  obtain ⟨hb, hp'⟩ := h
  exact ⟨fun r hr => hb r (List.mem_of_mem_filter hr),
    hp'.sublist (List.filter_sublist _) |>.imp id⟩

theorem storeInv_append_fresh (s : AppState) (rec : RefreshToken)
    (hid : rec.ID = s.nextId) (h : StoreInv s) :
    StoreInv { s with tokens := s.tokens ++ [rec], nextId := s.nextId + 1 } := by
  obtain ⟨hb, hp'⟩ := h
  constructor
  · intro r' hr'
    rcases List.mem_append.mp hr' with hr' | hr'
    · exact Nat.lt_succ_of_lt (hb r' hr')
    · rw [List.mem_singleton.mp hr', hid]
      exact Nat.lt_succ_self _
  · refine List.pairwise_append.mpr ⟨hp', List.pairwise_singleton _ _, ?_⟩
    intro a ha b hbm
    rw [List.mem_singleton.mp hbm, hid]
    exact Nat.ne_of_lt (hb a ha)

theorem storeInv_generateTokens (s : AppState) (m : JWTManager)
    (o : TokenOracle) (u : User) (h : StoreInv s) :
    StoreInv (authUseCase.generateTokens s m o u).2 := by
  obtain ⟨acc, ref⟩ := o
  unfold authUseCase.generateTokens
  cases acc with
  | error e => exact h
  | ok a =>
    cases ref with
    | error e => exact h
    | ok pr =>
      obtain ⟨t, e⟩ := pr
      simp only [refreshTokenRepository.Create]
      exact storeInv_append_fresh s _ rfl h

theorem applyOp_storeInv (s : AppState) (op : Op) (h : StoreInv s) :
    StoreInv (applyOp s op) := by
  cases op with
  | register m g uid o req =>
    simp only [applyOp]
    unfold authUseCase.Register
    repeat' split
    all_goals
      first
        | exact h
        | exact storeInv_generateTokens _ _ _ _ h
  | login m c o req =>
    simp only [applyOp]
    unfold authUseCase.Login
    repeat' split
    all_goals
      first
        | exact h
        | exact storeInv_generateTokens _ _ _ _ h
  | refresh m o now req =>
    simp only [applyOp]
    unfold authUseCase.RefreshToken
    repeat' split
    all_goals
      first
        | exact h
        | exact storeInv_generateTokens _ _ _ _ (storeInv_map_revokeIf _ _ h)
  | logout t => exact storeInv_map_revokeIf _ _ h
  | logoutAll u => exact storeInv_map_revokeIf _ _ h
  | createToken rec =>
    simp only [applyOp, refreshTokenRepository.Create]
    exact storeInv_append_fresh s _ rfl h
  | revokeToken t => exact storeInv_map_revokeIf _ _ h
  | revokeAllByUserID u => exact storeInv_map_revokeIf _ _ h
  | deleteExpired now => exact storeInv_filter _ _ h

theorem reachable_storeInv {s : AppState} (h : Reachable s) : StoreInv s := by
  induction h with
  | init => exact ⟨fun r hr => absurd hr (List.not_mem_nil r), List.Pairwise.nil⟩
  | step op _ ih => exact applyOp_storeInv _ op ih

/-!
## Claims
-/

/-- Claim C2 counterexample: at the instant `now = ExpiresAt` the code
still reports the record valid (`time.Now().After` is strict), so the
claimed equivalence with `now < expires_at` fails at that boundary. -/
theorem isValid_boundary_counterexample :
    RefreshToken.IsValid (⟨1, "u1", "t1", 100, false⟩ : RefreshToken) 100 = true
    ∧ ¬ ((⟨1, "u1", "t1", 100, false⟩ : RefreshToken).IsRevoked = false
        ∧ (100 : Int) < 100) := by
  constructor
  · decide
  · intro h
    exact absurd h.2 (by decide)

/-- Claim C2 (amended): IsValid returns true iff the record is not
revoked and `now ≤ expires_at`; at the instant `now = expires_at` the
record is still valid. -/
theorem isValid_iff (rt : RefreshToken) (now : Int) :
    rt.IsValid now = true ↔ (rt.IsRevoked = false ∧ now ≤ rt.ExpiresAt) := by
  simp only [RefreshToken.IsValid, RefreshToken.IsExpired, Bool.and_eq_true,
    Bool.not_eq_true', decide_eq_false_iff_not, not_lt]
  exact and_comm

/-- Claim C3: Login returns the very same error value
(ErrInvalidCredentials) when no account has the email and when the
account exists but password verification fails, so the two runs are
indistinguishable by the returned error. -/
theorem loginIndistinguishable (s : AppState) (m : JWTManager)
    (compareHashAndPassword : String → String → Bool) (o : TokenOracle)
    (req : LoginRequest)
    (h : userRepository.FindByEmail s.users req.Email = .error .userNotFound
      ∨ ∃ u, userRepository.FindByEmail s.users req.Email = .ok u
          ∧ compareHashAndPassword u.Password req.Password = false) :
    (authUseCase.Login s m compareHashAndPassword o req).1
      = .error .invalidCredentials := by
  rcases h with h | ⟨u, hu, hv⟩
  · simp [authUseCase.Login, h]
  · simp [authUseCase.Login, hu, hv]

/-- Witness for C3: on empty stores the lookup fails and Login reports
invalid credentials. -/
theorem loginIndistinguishable_witness :
    (authUseCase.Login { users := [], tokens := [], nextId := 0 }
        ⟨900, 604800⟩ (fun _ _ => true) ⟨.ok "a", .ok ("n", 9)⟩
        ⟨"x@y.com", "pw"⟩).1 = .error .invalidCredentials :=
  loginIndistinguishable _ _ _ _ _ (Or.inl rfl)

/-- Claim C4: RefreshToken reports ErrInvalidToken when no record
matches, ErrRefreshTokenRevoked when the matching record is revoked,
ErrRefreshTokenExpired when it is unrevoked but expired, and the three
error values are pairwise distinct. -/
theorem refreshTokenErrorTaxonomy (s : AppState) (m : JWTManager)
    (o : TokenOracle) (now : Int) (req : RefreshTokenRequest) :
    (refreshTokenRepository.FindByToken s.tokens req.RefreshToken
        = .error .refreshTokenNotFound →
      (authUseCase.RefreshToken s m o now req).1 = .error .invalidToken)
    ∧ (∀ r, refreshTokenRepository.FindByToken s.tokens req.RefreshToken = .ok r →
        r.IsRevoked = true →
        (authUseCase.RefreshToken s m o now req).1 = .error .refreshTokenRevoked)
    ∧ (∀ r, refreshTokenRepository.FindByToken s.tokens req.RefreshToken = .ok r →
        r.IsRevoked = false → r.ExpiresAt < now →
        (authUseCase.RefreshToken s m o now req).1 = .error .refreshTokenExpired)
    ∧ (DomainError.invalidToken ≠ DomainError.refreshTokenRevoked
        ∧ DomainError.invalidToken ≠ DomainError.refreshTokenExpired
        ∧ DomainError.refreshTokenRevoked ≠ DomainError.refreshTokenExpired) := by
  refine ⟨?_, ?_, ?_, by decide⟩
  · intro h
    simp [authUseCase.RefreshToken, h]
  · intro r hfind hrev
    have hval : r.IsValid now = false := by
      simp [RefreshToken.IsValid, hrev]
    simp [authUseCase.RefreshToken, hfind, hval, hrev]
  · intro r hfind hrev hexp
    have hval : r.IsValid now = false := by
      simp [RefreshToken.IsValid, RefreshToken.IsExpired, hexp]
    simp [authUseCase.RefreshToken, hfind, hval, hrev]

/-- Witness for C4: the three refresh failure kinds observed at concrete
stores (missing token, revoked record, unrevoked expired record). -/
theorem refreshTokenErrorTaxonomy_witness :
    (authUseCase.RefreshToken { users := [], tokens := [], nextId := 0 }
        ⟨900, 604800⟩ ⟨.ok "a", .ok ("n", 9)⟩ 0 ⟨"zz"⟩).1
      = .error .invalidToken
    ∧ (authUseCase.RefreshToken
        { users := [], tokens := [⟨1, "u", "tr", 10, true⟩], nextId := 2 }
        ⟨900, 604800⟩ ⟨.ok "a", .ok ("n", 9)⟩ 0 ⟨"tr"⟩).1
      = .error .refreshTokenRevoked
    ∧ (authUseCase.RefreshToken
        { users := [], tokens := [⟨1, "u", "tx", 10, false⟩], nextId := 2 }
        ⟨900, 604800⟩ ⟨.ok "a", .ok ("n", 9)⟩ 50 ⟨"tx"⟩).1
      = .error .refreshTokenExpired :=
  ⟨(refreshTokenErrorTaxonomy _ _ _ _ _).1 rfl,
   (refreshTokenErrorTaxonomy _ _ _ _ _).2.1 ⟨1, "u", "tr", 10, true⟩ rfl rfl,
   (refreshTokenErrorTaxonomy _ _ _ _ _).2.2.1 ⟨1, "u", "tx", 10, false⟩ rfl rfl
     (by decide)⟩

/-- Claim C6: across every core operation applied to a reachable state,
a revoked refresh-token record never becomes unrevoked: any row with the
same id after the operation is still revoked. -/
theorem revokedIsTerminal (s : AppState) (op : Op) (r r' : RefreshToken)
    (hs : Reachable s) (hr : r ∈ s.tokens) (hrev : r.IsRevoked = true)
    (hr' : r' ∈ (applyOp s op).tokens) (hid : r'.ID = r.ID) :
    r'.IsRevoked = true := by
  obtain ⟨hb, hp⟩ := reachable_storeInv hs
  rcases applyOp_tokensEvolve s op r' hr' with ⟨r₀, hr₀, hid₀, hmono⟩ | hge
  · have heq : r₀ = r := eq_of_mem_pairwise_ne hp hr₀ hr (hid₀.symm.trans hid)
    exact hmono (by rw [heq]; exact hrev)
  · exfalso
    have h1 := hb r hr
    rw [hid] at hge
    omega

/-- Witness for C6: create a record, revoke it, then run Logout again;
the record with the same id is still revoked. -/
theorem revokedIsTerminal_witness :
    ({ ID := 0, UserID := "u1", Token := "t1", ExpiresAt := 10,
        IsRevoked := true } : RefreshToken).IsRevoked = true :=
  revokedIsTerminal
    (applyOp
      (applyOp { users := [], tokens := [], nextId := 0 }
        (Op.createToken
          { ID := 0, UserID := "u1", Token := "t1", ExpiresAt := 10,
            IsRevoked := false }))
      (Op.revokeToken "t1"))
    (Op.logout "t1")
    { ID := 0, UserID := "u1", Token := "t1", ExpiresAt := 10, IsRevoked := true }
    { ID := 0, UserID := "u1", Token := "t1", ExpiresAt := 10, IsRevoked := true }
    (Reachable.step (Op.revokeToken "t1")
      (Reachable.step
        (Op.createToken
          { ID := 0, UserID := "u1", Token := "t1", ExpiresAt := 10,
            IsRevoked := false })
        Reachable.init))
    (by decide) rfl (by decide) rfl

theorem lt_length_of_getElem?_some {α : Type} {l : List α} {i : Nat} {a : α}
    (h : l[i]? = some a) : i < l.length := by
  by_contra hc
  push_neg at hc
  rw [List.getElem?_eq_none hc] at h
  cases h

theorem map_idem {α : Type} (f : α → α) (hf : ∀ a, f (f a) = f a)
    (l : List α) : (l.map f).map f = l.map f := by
  induction l with
  | nil => rfl
  | cons a l ih => simp [List.map_cons, hf, ih]

theorem Revoke_idem (l : List RefreshToken) (t : String) :
    refreshTokenRepository.Revoke (refreshTokenRepository.Revoke l t) t
      = refreshTokenRepository.Revoke l t := by
  unfold refreshTokenRepository.Revoke
  exact map_idem _ (fun r => by cases h : r.Token == t <;> simp [h]) l

theorem Revoke_no_match (l : List RefreshToken) (t : String)
    (h : ∀ r ∈ l, r.Token ≠ t) : refreshTokenRepository.Revoke l t = l := by
  unfold refreshTokenRepository.Revoke
  have : ∀ r ∈ l, (if r.Token == t then { r with IsRevoked := true } else r) = r := by
    intro r hr
    simp [h r hr]
  rw [List.map_congr_left this]
  exact List.map_id l

/-- Claim C7: Logout revokes exactly the records whose token value
equals the argument, leaves every other record and the user table
unchanged, never returns an error (benign when nothing matches), and is
idempotent. -/
theorem logoutFrame (s : AppState) (t : String) :
    (authUseCase.Logout s t).1 = .ok ()
    ∧ (authUseCase.Logout s t).2.users = s.users
    ∧ (authUseCase.Logout s t).2.nextId = s.nextId
    ∧ (authUseCase.Logout s t).2.tokens.length = s.tokens.length
    ∧ (∀ (i : Nat) (r : RefreshToken), s.tokens[i]? = some r → r.Token ≠ t →
        (authUseCase.Logout s t).2.tokens[i]? = some r)
    ∧ (∀ (i : Nat) (r : RefreshToken), s.tokens[i]? = some r → r.Token = t →
        (authUseCase.Logout s t).2.tokens[i]?
          = some { r with IsRevoked := true })
    ∧ ((∀ r ∈ s.tokens, r.Token ≠ t) → (authUseCase.Logout s t).2 = s)
    ∧ (authUseCase.Logout (authUseCase.Logout s t).2 t).2
        = (authUseCase.Logout s t).2 := by
  refine ⟨rfl, rfl, rfl, ?_, ?_, ?_, ?_, ?_⟩
  · simp [authUseCase.Logout, refreshTokenRepository.Revoke]
  · intro i r hi hne
    simp [authUseCase.Logout, refreshTokenRepository.Revoke,
      List.getElem?_map, hi, hne]
  · intro i r hi heq
    simp [authUseCase.Logout, refreshTokenRepository.Revoke,
      List.getElem?_map, hi, heq]
  · intro hno
    simp [authUseCase.Logout, Revoke_no_match s.tokens t hno]
  · exact congrArg (fun x => { s with tokens := x }) (Revoke_idem s.tokens t)

/-- Witness for C7: a store with one matching and one non-matching
record; the matching one is revoked, the other unchanged, the result ok. -/
theorem logoutFrame_witness :
    (authUseCase.Logout
        { users := [],
          tokens := [⟨1, "u1", "t1", 10, false⟩, ⟨2, "u1", "t2", 10, false⟩],
          nextId := 3 } "t1").1 = .ok ()
    ∧ (authUseCase.Logout
        { users := [],
          tokens := [⟨1, "u1", "t1", 10, false⟩, ⟨2, "u1", "t2", 10, false⟩],
          nextId := 3 } "t1").2.tokens[1]?
      = some ⟨2, "u1", "t2", 10, false⟩
    ∧ (authUseCase.Logout
        { users := [],
          tokens := [⟨1, "u1", "t1", 10, false⟩, ⟨2, "u1", "t2", 10, false⟩],
          nextId := 3 } "t1").2.tokens[0]?
      = some ⟨1, "u1", "t1", 10, true⟩ :=
  ⟨(logoutFrame _ "t1").1,
   (logoutFrame _ "t1").2.2.2.2.1 1 ⟨2, "u1", "t2", 10, false⟩ rfl (by decide),
   (logoutFrame _ "t1").2.2.2.2.2.1 0 ⟨1, "u1", "t1", 10, false⟩ rfl rfl⟩

theorem generateTokens_fst (s : AppState) (m : JWTManager) (o : TokenOracle)
    (u : User) :
    (∃ resp, (authUseCase.generateTokens s m o u).1 = .ok resp)
    ∨ (∃ msg, (authUseCase.generateTokens s m o u).1
        = .error (.internalError msg)) := by
  obtain ⟨acc, ref⟩ := o
  cases acc with
  | error msg => exact .inr ⟨_, rfl⟩
  | ok a =>
    cases ref with
    | error msg => exact .inr ⟨_, rfl⟩
    | ok pr =>
      obtain ⟨t, e⟩ := pr
      exact .inl ⟨_, rfl⟩

/-- Claim C10: whenever RefreshToken fails with invalid-token, revoked,
expired, or a failed owning-account lookup, the refresh-token store is
unchanged: the account lookup happens before revocation, so no record is
revoked on these paths. -/
theorem refreshErrorLeavesStoreUnchanged (s : AppState) (m : JWTManager)
    (o : TokenOracle) (now : Int) (req : RefreshTokenRequest)
    (e : DomainError)
    (h : (authUseCase.RefreshToken s m o now req).1 = .error e)
    (he : e = .invalidToken ∨ e = .refreshTokenRevoked
        ∨ e = .refreshTokenExpired ∨ e = .userNotFound) :
    (authUseCase.RefreshToken s m o now req).2 = s := by
  cases hf : refreshTokenRepository.FindByToken s.tokens req.RefreshToken with
  | error e' =>
    simp [authUseCase.RefreshToken, hf, apply_ite]
  | ok r =>
    cases hval : r.IsValid now with
    | false =>
      simp [authUseCase.RefreshToken, hf, hval, apply_ite]
    | true =>
      cases hu : userRepository.FindByID s.users r.UserID with
      | error e' => simp [authUseCase.RefreshToken, hf, hval, hu]
      | ok user =>
        exfalso
        have h1 : (authUseCase.RefreshToken s m o now req).1
            = (authUseCase.generateTokens
                { s with tokens :=
                    refreshTokenRepository.Revoke s.tokens req.RefreshToken }
                m o user).1 := by
          simp [authUseCase.RefreshToken, hf, hval, hu]
        rw [h1] at h
        rcases generateTokens_fst
            { s with tokens :=
                refreshTokenRepository.Revoke s.tokens req.RefreshToken }
            m o user with ⟨resp, hr2⟩ | ⟨msg, hr2⟩
        · exact absurd (hr2.symm.trans h) (by simp)
        · have hh := hr2.symm.trans h
          rcases he with rfl | rfl | rfl | rfl <;> simp at hh

/-- Witness for C10: refreshing an unknown token on the empty store
fails and leaves the store as it was. -/
theorem refreshErrorLeavesStoreUnchanged_witness :
    (authUseCase.RefreshToken { users := [], tokens := [], nextId := 0 }
        ⟨900, 604800⟩ ⟨.ok "a", .ok ("n", 9)⟩ 0 ⟨"zz"⟩).2
      = { users := [], tokens := [], nextId := 0 } :=
  refreshErrorLeavesStoreUnchanged _ _ _ _ _ .invalidToken rfl (Or.inl rfl)

/-- Claim C5 counterexample: with a valid record whose owning account is
absent, the implementation leaves the store untouched (lookup failed
before any revocation), while the spec-narrated order (revoke first,
then look up the account) would already have revoked the record — so the
implementation does not revoke before the account lookup. -/
theorem refreshOrder_counterexample :
    (authUseCase.RefreshToken
        { users := [], tokens := [⟨1, "u1", "t1", 100, false⟩], nextId := 2 }
        ⟨900, 604800⟩ ⟨.ok "a", .ok ("n", 9)⟩ 0 ⟨"t1"⟩).2
      = { users := [], tokens := [⟨1, "u1", "t1", 100, false⟩], nextId := 2 }
    ∧ (RefreshTokenSpecOrder
        { users := [], tokens := [⟨1, "u1", "t1", 100, false⟩], nextId := 2 }
        ⟨900, 604800⟩ ⟨.ok "a", .ok ("n", 9)⟩ 0 ⟨"t1"⟩).2
      ≠ { users := [], tokens := [⟨1, "u1", "t1", 100, false⟩], nextId := 2 } := by
  constructor
  · rfl
  · decide

/-- Claim C5 (amended): on a found and valid record the operation first
looks up the owning account, then revokes the presented token, then
issues the new pair; a failed account lookup therefore precedes (and
prevents) the revocation. -/
theorem refreshOrder (s : AppState) (m : JWTManager) (o : TokenOracle)
    (now : Int) (req : RefreshTokenRequest) (r : RefreshToken)
    (hfind : refreshTokenRepository.FindByToken s.tokens req.RefreshToken
      = .ok r)
    (hvalid : r.IsValid now = true) :
    authUseCase.RefreshToken s m o now req
      = match userRepository.FindByID s.users r.UserID with
        | .error e => (.error e, s)
        | .ok user =>
          authUseCase.generateTokens
            { s with tokens :=
                refreshTokenRepository.Revoke s.tokens req.RefreshToken }
            m o user := by
  simp [authUseCase.RefreshToken, hfind, hvalid]

/-- Witness for C5 (amended): the equation evaluated at a one-user,
one-record store with a valid token. -/
theorem refreshOrder_witness :
    authUseCase.RefreshToken
        { users := [⟨"u1", "e@x", "h", "N"⟩],
          tokens := [⟨1, "u1", "t1", 100, false⟩], nextId := 2 }
        ⟨900, 604800⟩ ⟨.ok "a", .ok ("n", 9)⟩ 0 ⟨"t1"⟩
      = match userRepository.FindByID [⟨"u1", "e@x", "h", "N"⟩] "u1" with
        | .error e =>
          (.error e,
           { users := [⟨"u1", "e@x", "h", "N"⟩],
             tokens := [⟨1, "u1", "t1", 100, false⟩], nextId := 2 })
        | .ok user =>
          authUseCase.generateTokens
            { users := [⟨"u1", "e@x", "h", "N"⟩],
              tokens := refreshTokenRepository.Revoke
                [⟨1, "u1", "t1", 100, false⟩] "t1",
              nextId := 2 }
            ⟨900, 604800⟩ ⟨.ok "a", .ok ("n", 9)⟩ user :=
  refreshOrder _ _ _ _ _ ⟨1, "u1", "t1", 100, false⟩ rfl rfl

/-- Claim C8: LogoutAll succeeds, revokes exactly the account's records
(other accounts' records and the user table unchanged), and afterwards
every token whose first store match belonged to that account fails
RefreshToken with ErrRefreshTokenRevoked. -/
theorem logoutAllRevokesAccount (s : AppState) (uid : String) :
    (authUseCase.LogoutAll s uid).1 = .ok ()
    ∧ (authUseCase.LogoutAll s uid).2.users = s.users
    ∧ (∀ (i : Nat) (r : RefreshToken), s.tokens[i]? = some r →
        r.UserID = uid →
        (authUseCase.LogoutAll s uid).2.tokens[i]?
          = some { r with IsRevoked := true })
    ∧ (∀ (i : Nat) (r : RefreshToken), s.tokens[i]? = some r →
        r.UserID ≠ uid →
        (authUseCase.LogoutAll s uid).2.tokens[i]? = some r)
    ∧ (∀ (req : RefreshTokenRequest) (r : RefreshToken) (m : JWTManager)
        (o : TokenOracle) (now : Int),
        s.tokens.find? (fun x => x.Token == req.RefreshToken) = some r →
        r.UserID = uid →
        (authUseCase.RefreshToken (authUseCase.LogoutAll s uid).2
            m o now req).1 = .error .refreshTokenRevoked) := by
  refine ⟨rfl, rfl, ?_, ?_, ?_⟩
  · intro i r hi huid
    simp [authUseCase.LogoutAll, refreshTokenRepository.RevokeAllByUserID,
      List.getElem?_map, hi, huid]
  · intro i r hi huid
    simp [authUseCase.LogoutAll, refreshTokenRepository.RevokeAllByUserID,
      List.getElem?_map, hi, huid]
  · intro req r m o now hfind huid
    have hf : ∀ x : RefreshToken,
        ((fun y => if y.UserID == uid then { y with IsRevoked := true } else y)
          x).Token = x.Token := by
      intro x
      cases h : x.UserID == uid <;> simp [h]
    have hmap := find?_token_map _ hf s.tokens req.RefreshToken
    have hfr : refreshTokenRepository.FindByToken
        (authUseCase.LogoutAll s uid).2.tokens req.RefreshToken
          = .ok { r with IsRevoked := true } := by
      apply FindByToken_eq_ok.mpr
      show (s.tokens.map _).find? _ = _
      rw [hmap, hfind]
      simp [huid]
    simp [authUseCase.RefreshToken, hfr, RefreshToken.IsValid]

/-- Witness for C8: two accounts with one token each; after LogoutAll of
the first account its token is revoked and refuses refresh, the other
account's token is untouched. -/
theorem logoutAllRevokesAccount_witness :
    (authUseCase.LogoutAll
        { users := [],
          tokens := [⟨1, "u1", "t1", 10, false⟩, ⟨2, "u2", "t2", 10, false⟩],
          nextId := 3 } "u1").2.tokens[0]?
      = some ⟨1, "u1", "t1", 10, true⟩
    ∧ (authUseCase.LogoutAll
        { users := [],
          tokens := [⟨1, "u1", "t1", 10, false⟩, ⟨2, "u2", "t2", 10, false⟩],
          nextId := 3 } "u1").2.tokens[1]?
      = some ⟨2, "u2", "t2", 10, false⟩
    ∧ (authUseCase.RefreshToken
        (authUseCase.LogoutAll
          { users := [],
            tokens := [⟨1, "u1", "t1", 10, false⟩, ⟨2, "u2", "t2", 10, false⟩],
            nextId := 3 } "u1").2
        ⟨900, 604800⟩ ⟨.ok "a", .ok ("n", 9)⟩ 0 ⟨"t1"⟩).1
      = .error .refreshTokenRevoked :=
  ⟨(logoutAllRevokesAccount _ "u1").2.2.1 0 ⟨1, "u1", "t1", 10, false⟩ rfl rfl,
   (logoutAllRevokesAccount _ "u1").2.2.2.1 1 ⟨2, "u2", "t2", 10, false⟩ rfl
     (by decide),
   (logoutAllRevokesAccount _ "u1").2.2.2.2 ⟨"t1"⟩ ⟨1, "u1", "t1", 10, false⟩
     ⟨900, 604800⟩ ⟨.ok "a", .ok ("n", 9)⟩ 0 rfl rfl⟩

/-- Claim C1: a found, valid refresh token (owning account present,
token generation succeeding) is redeemable exactly once: the first call
returns the new token pair and revokes every store row holding the
presented token value, and a second call presenting the same value fails
with ErrRefreshTokenRevoked, whatever its time and oracle. -/
theorem refreshSingleUse (s : AppState) (m : JWTManager) (o o₂ : TokenOracle)
    (now now₂ : Int) (req : RefreshTokenRequest) (r : RefreshToken)
    (user : User) (accessToken newToken : String) (newExp : Int)
    (hfind : refreshTokenRepository.FindByToken s.tokens req.RefreshToken
      = .ok r)
    (hvalid : r.IsValid now = true)
    (huser : userRepository.FindByID s.users r.UserID = .ok user)
    (hacc : o.access = .ok accessToken)
    (href : o.refresh = .ok (newToken, newExp)) :
    ((authUseCase.RefreshToken s m o now req).1
        = .ok { AccessToken := accessToken, RefreshToken := newToken,
                TokenType := "Bearer", ExpiresIn := m.GetAccessTokenDuration,
                User := { ID := user.ID, Email := user.Email,
                          Name := user.Name } })
    ∧ (∀ (i : Nat) (rr : RefreshToken), s.tokens[i]? = some rr →
        rr.Token = req.RefreshToken →
        (authUseCase.RefreshToken s m o now req).2.tokens[i]?
          = some { rr with IsRevoked := true })
    ∧ (authUseCase.RefreshToken (authUseCase.RefreshToken s m o now req).2
        m o₂ now₂ req).1 = .error .refreshTokenRevoked := by
  have htok : r.Token = req.RefreshToken := Token_of_FindByToken hfind
  have hfind' := FindByToken_eq_ok.mp hfind
  have hstate : (authUseCase.RefreshToken s m o now req).2
      = { s with
          tokens := refreshTokenRepository.Revoke s.tokens req.RefreshToken
            ++ [{ ID := s.nextId, UserID := user.ID, Token := newToken,
                  ExpiresAt := newExp, IsRevoked := false }],
          nextId := s.nextId + 1 } := by
    simp [authUseCase.RefreshToken, hfind, hvalid, huser,
      authUseCase.generateTokens, hacc, href, refreshTokenRepository.Create]
  refine ⟨?_, ?_, ?_⟩
  · simp [authUseCase.RefreshToken, hfind, hvalid, huser,
      authUseCase.generateTokens, hacc, href, refreshTokenRepository.Create]
  · intro i rr hi htk
    have hlen : i < s.tokens.length := lt_length_of_getElem?_some hi
    have helem : s.tokens[i] = rr := by
      rw [List.getElem?_eq_getElem hlen] at hi
      exact Option.some.inj hi
    rw [hstate]
    show (refreshTokenRepository.Revoke s.tokens req.RefreshToken
      ++ _)[i]? = _
    rw [List.getElem?_append]
    unfold refreshTokenRepository.Revoke
    simp [List.getElem?_map, hlen, helem, htk]
  · have hf : ∀ x : RefreshToken,
        ((fun y => if y.Token == req.RefreshToken
            then { y with IsRevoked := true } else y) x).Token = x.Token := by
      intro x
      cases h : x.Token == req.RefreshToken <;> simp [h]
    have hmap := find?_token_map _ hf s.tokens req.RefreshToken
    have hfindPost : refreshTokenRepository.FindByToken
        (authUseCase.RefreshToken s m o now req).2.tokens req.RefreshToken
          = .ok { r with IsRevoked := true } := by
      apply FindByToken_eq_ok.mpr
      rw [hstate]
      show ((s.tokens.map _ ++ _).find? _) = _
      rw [List.find?_append, hmap, hfind']
      simp [htok]
    generalize hgen : (authUseCase.RefreshToken s m o now req).2 = s₂
      at hfindPost ⊢
    simp [authUseCase.RefreshToken, hfindPost, RefreshToken.IsValid]

/-- Witness for C1: a one-user, one-record store; the refresh succeeds
and an immediate second presentation of the same token is rejected as
revoked. -/
theorem refreshSingleUse_witness :
    (authUseCase.RefreshToken
        (authUseCase.RefreshToken
          { users := [⟨"u1", "e@x", "h", "N"⟩],
            tokens := [⟨1, "u1", "t1", 100, false⟩], nextId := 2 }
          ⟨900, 604800⟩ ⟨.ok "acc", .ok ("t2", 200)⟩ 0 ⟨"t1"⟩).2
        ⟨900, 604800⟩ ⟨.ok "acc2", .ok ("t3", 300)⟩ 0 ⟨"t1"⟩).1
      = .error .refreshTokenRevoked :=
  (refreshSingleUse
    { users := [⟨"u1", "e@x", "h", "N"⟩],
      tokens := [⟨1, "u1", "t1", 100, false⟩], nextId := 2 }
    ⟨900, 604800⟩ ⟨.ok "acc", .ok ("t2", 200)⟩ ⟨.ok "acc2", .ok ("t3", 300)⟩
    0 0 ⟨"t1"⟩ ⟨1, "u1", "t1", 100, false⟩ ⟨"u1", "e@x", "h", "N"⟩
    "acc" "t2" 200 rfl rfl rfl rfl rfl).2.2

theorem hexEncode_length (l : List Nat) :
    (l.flatMap (fun b => [hex.hexDigit (b / 16), hex.hexDigit (b % 16)])).length
      = 2 * l.length := by
  induction l with
  | nil => rfl
  | cons a l ih =>
    simp only [List.flatMap_cons, List.length_append, List.length_cons,
      List.length_nil, ih]
    omega

theorem hexDigit_mem (n : Nat) (h : n < 16) :
    hex.hexDigit n ∈ hexAlphabet.data := by
  have hall : ∀ k : Fin 16, hex.hexDigit k.val ∈ hexAlphabet.data := by decide
  exact hall ⟨n, h⟩

/-- Claim C9: GenerateRefreshToken reads 32 random bytes, returns their
fixed-width printable hex encoding (64 characters, all lower-case hex
digits) and an expiry equal to the generation time plus the configured
refresh-token lifetime. -/
theorem generateRefreshTokenSpec (m : JWTManager) (rand : Nat → Fin 256)
    (now : Int) :
    (m.GenerateRefreshToken rand now).1.length = 64
    ∧ (∀ c ∈ (m.GenerateRefreshToken rand now).1.data, c ∈ hexAlphabet.data)
    ∧ (m.GenerateRefreshToken rand now).2 = now + m.refreshTokenDuration := by
  refine ⟨?_, ?_, rfl⟩
  · show (hex.EncodeToString _).length = 64
    unfold hex.EncodeToString
    show (List.flatMap _ _).length = 64
    rw [hexEncode_length]
    simp
  · intro c hc
    have hc' : c ∈ ((List.range 32).map (fun i => (rand i).val)).flatMap
        (fun b => [hex.hexDigit (b / 16), hex.hexDigit (b % 16)]) := hc
    rcases List.mem_flatMap.mp hc' with ⟨b, hb, hcb⟩
    rcases List.mem_map.mp hb with ⟨i, _, rfl⟩
    have hlt : (rand i).val < 256 := (rand i).isLt
    rcases List.mem_cons.mp hcb with rfl | hcb'
    · exact hexDigit_mem _ ((Nat.div_lt_iff_lt_mul (by omega)).mpr (by omega))
    · rcases List.mem_singleton.mp hcb' with rfl
      exact hexDigit_mem _ (Nat.mod_lt _ (by omega))

/-- Witness for C9: with the all-zero byte oracle the token is 64
characters and each of them, for example the first, is a hex digit. -/
theorem generateRefreshTokenSpec_witness :
    (JWTManager.GenerateRefreshToken ⟨900, 604800⟩ (fun _ => ⟨0, by omega⟩)
        0).1.length = 64
    ∧ ('0' : Char) ∈ hexAlphabet.data :=
  ⟨(generateRefreshTokenSpec ⟨900, 604800⟩ (fun _ => ⟨0, by omega⟩) 0).1,
   (generateRefreshTokenSpec ⟨900, 604800⟩ (fun _ => ⟨0, by omega⟩) 0).2.1 '0'
     (by decide)⟩
